import Mathlib

/-!
Verification development for the seo-scanner pipeline.

The Python sources are shallowly embedded as Lean definitions:

* `src/src/utils.py` — `is_valid_url` (URL scope predicate) together with a
  model of `urllib.parse.urlparse` restricted to the scheme and netloc
  components, which are the only components the scanner reads.
* `src/src/crawler.py` — `WebCrawler.crawl_site`, embedded as a fuelled
  functional loop `crawlLoop` over an explicit frontier / visited / result
  state, parameterised by an environment providing the network fetch and the
  per-page link extraction (the two effectful collaborators).
* `src/src/analyzer.py` — `PageAnalyzer.analyze_page` and its helpers over a
  simplified DOM (`Html`), standing for the BeautifulSoup parse tree.
* `src/src/issues.py` — `IssueDetector` rule functions.
* `src/main.py` — the caller's empty-crawl check, embedded as `runScan`.

String operations are implemented over the underlying character lists so that
all definitions evaluate inside the kernel on concrete inputs.
-/

/-- Model of Python `str.lower` (ASCII case folding). -/
def lowerStr (s : String) : String := ⟨s.data.map Char.toLower⟩

/-- Drop trailing whitespace characters of a character list. -/
def dropTrail (l : List Char) : List Char := (l.reverse.dropWhile Char.isWhitespace).reverse

/-- Model of Python `str.strip` with no argument: remove leading and trailing
whitespace. -/
def stripStr (s : String) : String := ⟨dropTrail (s.data.dropWhile Char.isWhitespace)⟩

/-- Model of Python `str.startswith`. -/
def startsWithStr (s pre : String) : Bool := pre.data.isPrefixOf s.data

/-- Model of Python `str.endswith`. -/
def endsWithStr (s suf : String) : Bool := suf.data.isSuffixOf s.data

/-- Does `needle` occur as a contiguous run inside the second list?  Model of
Python's substring test `needle in hay`. -/
def containsSub (needle : List Char) : List Char → Bool
  | [] => needle.isPrefixOf []
  | c :: t => needle.isPrefixOf (c :: t) || containsSub needle t

/-- Model of Python `needle in hay` on strings. -/
def strContains (hay needle : String) : Bool := containsSub needle.data hay.data

/-- Characters allowed in a URL scheme after the first letter
(`urllib.parse` accepts letters, digits and `+`, `-`, `.`). -/
def schemeChar (c : Char) : Bool := c.isAlphanum || c = '+' || c = '-' || c = '.'

/-- Split a character list at the first occurrence of `sep`, returning the
parts before and after it, or `none` when `sep` does not occur. -/
def splitFirst (sep : Char) : List Char → Option (List Char × List Char)
  | [] => none
  | c :: t =>
    if c = sep then some ([], t)
    else (splitFirst sep t).map (fun p => (c :: p.1, p.2))

/-- The two components of `urllib.parse.urlparse` that the scanner reads. -/
structure ParsedUrl where
  scheme : String
  netloc : String
deriving DecidableEq

/-- Model of `urllib.parse.urlparse`, restricted to the `scheme` and `netloc`
components: the scheme is the lower-cased text before the first `:` when that
text is a well-formed scheme (letter first, then scheme characters), and the
netloc is the text after a leading `//` of the remainder, up to the first
`/`, `?` or `#`. -/
def urlparse (url : String) : ParsedUrl :=
  let l := url.data
  let sr : List Char × List Char :=
    match splitFirst ':' l with
    | some (pre, post) =>
      if (match pre with | c :: _ => c.isAlpha | [] => false) && pre.all schemeChar
      then (pre.map Char.toLower, post)
      else ([], l)
    | none => ([], l)
  let netloc : List Char :=
    match sr.2 with
    | '/' :: '/' :: r => r.takeWhile (fun c => !(c = '/' || c = '?' || c = '#'))
    | _ => []
  ⟨⟨sr.1⟩, ⟨netloc⟩⟩

/-- The `skip_extensions` list of `is_valid_url` in `src/src/utils.py`. -/
def skip_ext_list : List String :=
  [".pdf", ".doc", ".docx", ".xls", ".xlsx", ".ppt", ".pptx",
   ".zip", ".rar", ".tar", ".gz", ".exe", ".dmg",
   ".jpg", ".jpeg", ".png", ".gif", ".svg", ".ico",
   ".mp3", ".mp4", ".avi", ".mov", ".wmv",
   ".css", ".js", ".xml", ".rss"]

/-- The `skip_patterns` list of `is_valid_url` in `src/src/utils.py`. -/
def skip_pattern_list : List String :=
  ["/wp-admin/", "/admin/", "/login/", "/logout/",
   "/wp-content/", "/wp-includes/",
   "mailto:", "tel:", "ftp:", "file:",
   "#", "javascript:"]

/-- Embedding of `is_valid_url(url, allowed_domain)` from `src/src/utils.py`:
require a parseable netloc and scheme, an `http`/`https` scheme, netloc equal
to `allowed_domain` when one is given, and reject URLs ending in a non-page
extension or containing a skip pattern (both checked on the lower-cased URL). -/
def is_valid_url (url : String) (allowed_domain : String) : Bool :=
  let parsed := urlparse url
  if parsed.netloc = "" ∨ parsed.scheme = "" then false
  else if ¬ (parsed.scheme = "http" ∨ parsed.scheme = "https") then false
  else if allowed_domain ≠ "" ∧ parsed.netloc ≠ allowed_domain then false
  else
    let url_lower := lowerStr url
    if skip_ext_list.any (fun e => endsWithStr url_lower e) then false
    else if skip_pattern_list.any (fun p => strContains url_lower p) then false
    else true

/-- Claim C2 counterexample: the site `https://example.com/` has scheme
`https` and authority `example.com`; the candidate `http://example.com/page`
has the same authority but the other scheme, yet `is_valid_url` accepts it,
so the cross-scheme link is in scope, contradicting the claim that the scope
predicate returns false for it. -/
theorem claimC2_counterexample :
    (urlparse "https://example.com/").scheme = "https" ∧
    (urlparse "https://example.com/").netloc = "example.com" ∧
    (urlparse "http://example.com/page").scheme = "http" ∧
    (urlparse "http://example.com/page").netloc = "example.com" ∧
    is_valid_url "http://example.com/page" "example.com" = true := by
  decide

/-- Claim C2, amended: the scope predicate never compares the candidate's
scheme with the site's scheme.  Any candidate whose authority equals the
allowed authority and whose scheme is `http` or `https` — whether or not it
matches the site's scheme — is in scope, provided it passes the
file-extension and skip-pattern filters. -/
theorem claimC2_scheme_not_compared (url allowed : String)
    (hn : (urlparse url).netloc = allowed) (hne : allowed ≠ "")
    (hs : (urlparse url).scheme = "http" ∨ (urlparse url).scheme = "https")
    (hext : ∀ e ∈ skip_ext_list, endsWithStr (lowerStr url) e = false)
    (hpat : ∀ p ∈ skip_pattern_list, strContains (lowerStr url) p = false) :
    is_valid_url url allowed = true := by
  have hnet : (urlparse url).netloc ≠ "" := by rw [hn]; exact hne
  have hsch : (urlparse url).scheme ≠ "" := by
    rcases hs with h | h <;> rw [h] <;> decide
  unfold is_valid_url
  rw [if_neg (by push_neg; exact ⟨hnet, hsch⟩)]
  rw [if_neg (by simp only [not_not]; exact hs)]
  rw [if_neg (by rw [hn]; simp)]
  rw [if_neg (by rw [List.any_eq_true]; rintro ⟨e, he, hcontra⟩; rw [hext e he] at hcontra; exact absurd hcontra (by simp))]
  rw [if_neg (by rw [List.any_eq_true]; rintro ⟨p, hp, hcontra⟩; rw [hpat p hp] at hcontra; exact absurd hcontra (by simp))]

/-- Witness for the amended claim C2 at a concrete cross-scheme candidate. -/
theorem claimC2_witness :
    (urlparse "http://example.com/page").netloc = "example.com" ∧
    ("example.com" : String) ≠ "" ∧
    ((urlparse "http://example.com/page").scheme = "http" ∨
      (urlparse "http://example.com/page").scheme = "https") ∧
    (∀ e ∈ skip_ext_list, endsWithStr (lowerStr "http://example.com/page") e = false) ∧
    (∀ p ∈ skip_pattern_list, strContains (lowerStr "http://example.com/page") p = false) ∧
    is_valid_url "http://example.com/page" "example.com" = true :=
  ⟨by decide, by decide, by decide, by decide, by decide,
    claimC2_scheme_not_compared "http://example.com/page" "example.com"
      (by decide) (by decide) (by decide) (by decide) (by decide)⟩

/-- Environment of `WebCrawler.crawl_site`: `fetch u` is the outcome of
`session.get(u)` followed by `raise_for_status` (`none` on timeout,
connection error or non-success status, otherwise the response body), and
`links u body` is the list of absolute URLs obtained by parsing `body` for
`<a href>` targets and resolving each against `u` with `urljoin`. -/
structure CrawlEnv where
  fetch : String → Option String
  links : String → String → List String

/-- Final state of a crawl run: the `(url, rawMarkup)` result sequence, the
visited set (as the list in insertion order) and, for analysis purposes, the
ordered list of URLs on which a fetch was attempted. -/
structure CrawlResult where
  crawled : List (String × String)
  visited : List String
  attempts : List String

/-- Embedding of the link-discovery `for` loop of `crawl_site`: append each
extracted link to the frontier when it is in scope, not visited and not
already queued (the membership test sees links appended earlier in the same
loop, as with the Python list). -/
def enqueueLinks (domain : String) (visited : List String) (frontier : List String)
    (ls : List String) : List String :=
  ls.foldl
    (fun fr l =>
      if is_valid_url l domain ∧ l ∉ visited ∧ l ∉ fr then fr ++ [l] else fr)
    frontier

/-- Embedding of the `while` loop of `crawl_site` in `src/src/crawler.py`,
made terminating with a fuel parameter (every claim proved about it holds for
every fuel value).  Loop while the frontier is non-empty and fewer than
`maxPages` pages have been fetched: pop the front URL, skip it if visited,
otherwise fetch it; on failure continue with the state unchanged, on success
record the page in `visited` and the result and enqueue its in-scope links. -/
def crawlLoop (env : CrawlEnv) (domain : String) (maxPages : Nat) :
    Nat → List String → List String → List (String × String) → List String → CrawlResult
  | 0, _, visited, crawled, attempts => ⟨crawled, visited, attempts⟩
  | _ + 1, [], visited, crawled, attempts => ⟨crawled, visited, attempts⟩
  | fuel + 1, u :: rest, visited, crawled, attempts =>
    if crawled.length < maxPages then
      if u ∈ visited then
        crawlLoop env domain maxPages fuel rest visited crawled attempts
      else
        match env.fetch u with
        | none => crawlLoop env domain maxPages fuel rest visited crawled (attempts ++ [u])
        | some body =>
          crawlLoop env domain maxPages fuel
            (enqueueLinks domain (visited ++ [u]) rest (env.links u body))
            (visited ++ [u]) (crawled ++ [(u, body)]) (attempts ++ [u])
    else ⟨crawled, visited, attempts⟩

/-- Embedding of `WebCrawler.crawl_site`: start from the frontier
`[base_url]`, an empty visited set and an empty result, with the allowed
domain taken from the netloc of `base_url` as in `WebCrawler.__init__`. -/
def crawl_site (env : CrawlEnv) (base_url : String) (maxPages fuel : Nat) : CrawlResult :=
  crawlLoop env (urlparse base_url).netloc maxPages fuel [base_url] [] [] []

/-- Crawl environment exhibiting re-fetch of a failed URL: the seed links to
pages `a` and `b`; fetching `a` always fails; page `b` links back to `a`. -/
def reFetchEnv : CrawlEnv where
  fetch u :=
    if u = "https://example.com/" then some "seed page"
    else if u = "https://example.com/b" then some "page b"
    else none
  links u _ :=
    if u = "https://example.com/" then ["https://example.com/a", "https://example.com/b"]
    else if u = "https://example.com/b" then ["https://example.com/a"]
    else []

/-- Claim C1 counterexample: in `reFetchEnv` every fetch of
`https://example.com/a` fails, yet the crawl attempts to fetch it twice — the
URL re-enters the frontier when page `b` links to it, so a URL whose fetch
failed is not abandoned for the remainder of the run. -/
theorem claimC1_counterexample :
    reFetchEnv.fetch "https://example.com/a" = none ∧
    ((crawl_site reFetchEnv "https://example.com/" 50 10).attempts).count
      "https://example.com/a" = 2 := by
  constructor
  · rfl
  · decide

/-- Claim C1, amended: on a fetch failure the crawl continues with the rest
of the frontier, the failed URL is not re-enqueued by the failure handling
itself, and neither the visited set nor the result sequence (hence the page
budget) changes — but the URL is not recorded as visited, so it may re-enter
the frontier and be fetched again later in the same run if another crawled
page links to it (see the counterexample). -/
theorem claimC1_failure_step (env : CrawlEnv) (domain : String) (maxPages fuel : Nat)
    (u : String) (rest visited attempts : List String) (crawled : List (String × String))
    (hb : crawled.length < maxPages) (hv : u ∉ visited) (hf : env.fetch u = none) :
    crawlLoop env domain maxPages (fuel + 1) (u :: rest) visited crawled attempts
      = crawlLoop env domain maxPages fuel rest visited crawled (attempts ++ [u]) := by
  simp only [crawlLoop, if_pos hb, hf]
  rw [if_neg hv]

/-- Witness for the amended claim C1 at concrete inputs. -/
theorem claimC1_witness :
    (([] : List (String × String)).length < 50) ∧
    ("https://example.com/a" ∉ (["https://example.com/"] : List String)) ∧
    reFetchEnv.fetch "https://example.com/a" = none ∧
    crawlLoop reFetchEnv "example.com" 50 4 ["https://example.com/a", "https://example.com/b"]
        ["https://example.com/"] [] []
      = crawlLoop reFetchEnv "example.com" 50 3 ["https://example.com/b"]
        ["https://example.com/"] [] ["https://example.com/a"] :=
  ⟨by decide, by decide, by rfl,
    claimC1_failure_step reFetchEnv "example.com" 50 3 "https://example.com/a"
      ["https://example.com/b"] ["https://example.com/"] [] [] (by decide) (by decide) (by rfl)⟩

/-- Helper: the length of the result sequence never exceeds `maxPages`,
assuming it does not already on entry (the loop body appends a page only
after checking `crawled.length < maxPages`). -/
theorem crawlLoop_crawled_length_le (env : CrawlEnv) (d : String) (m : Nat) :
    ∀ (fuel : Nat) (frontier visited : List String) (crawled : List (String × String))
      (attempts : List String), crawled.length ≤ m →
      ((crawlLoop env d m fuel frontier visited crawled attempts).crawled).length ≤ m := by
  intro fuel
  induction fuel with
  | zero => intro frontier visited crawled attempts h; exact h
  | succ n ih =>
    intro frontier visited crawled attempts h
    match frontier with
    | [] => exact h
    | u :: rest =>
      simp only [crawlLoop]
      split
      · rename_i hlt
        split
        · exact ih rest visited crawled attempts h
        · cases hf : env.fetch u with
          | none => exact ih rest visited crawled (attempts ++ [u]) h
          | some body =>
            apply ih
            simp only [List.length_append, List.length_cons, List.length_nil]
            omega
      · exact h

/-- Helper: the visited set and the result sequence grow in lockstep — the
loop adds to `visited` exactly when it appends to the result. -/
theorem crawlLoop_visited_length (env : CrawlEnv) (d : String) (m : Nat) :
    ∀ (fuel : Nat) (frontier visited : List String) (crawled : List (String × String))
      (attempts : List String),
      ((crawlLoop env d m fuel frontier visited crawled attempts).visited).length
          + crawled.length
        = ((crawlLoop env d m fuel frontier visited crawled attempts).crawled).length
          + visited.length := by
  intro fuel
  induction fuel with
  | zero => intro frontier visited crawled attempts; simp only [crawlLoop]; omega
  | succ n ih =>
    intro frontier visited crawled attempts
    match frontier with
    | [] => simp only [crawlLoop]; omega
    | u :: rest =>
      simp only [crawlLoop]
      split
      · split
        · exact ih rest visited crawled attempts
        · cases hf : env.fetch u with
          | none => exact ih rest visited crawled (attempts ++ [u])
          | some body =>
            have h := ih (enqueueLinks d (visited ++ [u]) rest (env.links u body))
              (visited ++ [u]) (crawled ++ [(u, body)]) (attempts ++ [u])
            simp only [List.length_append, List.length_cons, List.length_nil] at h ⊢
            omega
      · simp only []
        omega

/-- Helper: the URLs of the result sequence are exactly the attempted URLs
whose fetch succeeded (in order), provided that holds of the accumulators on
entry — a failed attempt extends `attempts` but never the result. -/
theorem crawlLoop_crawled_filter (env : CrawlEnv) (d : String) (m : Nat) :
    ∀ (fuel : Nat) (frontier visited : List String) (crawled : List (String × String))
      (attempts : List String),
      crawled.map Prod.fst = attempts.filter (fun u => (env.fetch u).isSome) →
      ((crawlLoop env d m fuel frontier visited crawled attempts).crawled).map Prod.fst
        = ((crawlLoop env d m fuel frontier visited crawled attempts).attempts).filter
            (fun u => (env.fetch u).isSome) := by
  intro fuel
  induction fuel with
  | zero => intro frontier visited crawled attempts h; exact h
  | succ n ih =>
    intro frontier visited crawled attempts h
    match frontier with
    | [] => exact h
    | u :: rest =>
      simp only [crawlLoop]
      split
      · split
        · exact ih rest visited crawled attempts h
        · cases hf : env.fetch u with
          | none =>
            apply ih
            rw [List.filter_append, h]
            simp [List.filter_cons, hf]
          | some body =>
            apply ih
            rw [List.filter_append, List.map_append, h]
            simp [List.filter_cons, hf]
      · exact h

/-- Claim C3: for every crawl run with page budget `maxPages` (any natural
number, in particular `≥ 0`), the result sequence has at most `maxPages`
entries and the visited set has at most `maxPages` elements, for every fuel
value of the loop; moreover the result URLs are exactly the attempted URLs
whose fetch succeeded, so failed fetches never consume budget. -/
theorem claimC3_budget_bound (env : CrawlEnv) (base_url : String) (maxPages fuel : Nat) :
    ((crawl_site env base_url maxPages fuel).crawled).length ≤ maxPages ∧
    ((crawl_site env base_url maxPages fuel).visited).length ≤ maxPages ∧
    ((crawl_site env base_url maxPages fuel).crawled).map Prod.fst
      = ((crawl_site env base_url maxPages fuel).attempts).filter
          (fun u => (env.fetch u).isSome) := by
  have h1 := crawlLoop_crawled_length_le env (urlparse base_url).netloc maxPages fuel
    [base_url] [] [] [] (by simp)
  have h2 := crawlLoop_visited_length env (urlparse base_url).netloc maxPages fuel
    [base_url] [] [] []
  simp only [List.length_nil] at h2
  refine ⟨h1, by unfold crawl_site at *; omega, ?_⟩
  exact crawlLoop_crawled_filter env (urlparse base_url).netloc maxPages fuel
    [base_url] [] [] [] (by simp)

/-- Helper: the URLs of the result sequence are always members of the visited
set, and the result sequence has no duplicate URLs, provided both hold on
entry; the loop fetches a popped URL only when it is not yet visited, and on
success records it in both the visited set and the result. -/
theorem crawlLoop_nodup (env : CrawlEnv) (d : String) (m : Nat) :
    ∀ (fuel : Nat) (frontier visited : List String) (crawled : List (String × String))
      (attempts : List String),
      (∀ x ∈ crawled.map Prod.fst, x ∈ visited) →
      (crawled.map Prod.fst).Nodup →
      ((crawlLoop env d m fuel frontier visited crawled attempts).crawled.map Prod.fst).Nodup := by
  intro fuel
  induction fuel with
  | zero => intro frontier visited crawled attempts _ hnd; exact hnd
  | succ n ih =>
    intro frontier visited crawled attempts hsub hnd
    match frontier with
    | [] => exact hnd
    | u :: rest =>
      simp only [crawlLoop]
      split
      · split
        · exact ih rest visited crawled attempts hsub hnd
        · rename_i hvis
          cases hf : env.fetch u with
          | none => exact ih rest visited crawled (attempts ++ [u]) hsub hnd
          | some body =>
            apply ih
            · intro x hx
              simp only [List.map_append, List.mem_append, List.map_cons, List.map_nil,
                List.mem_cons, List.not_mem_nil, or_false] at hx
              rcases hx with hx | hx
              · exact List.mem_append_left _ (hsub x hx)
              · subst hx; exact List.mem_append_right _ (List.mem_singleton.mpr rfl)
            · simp only [List.map_append, List.map_cons, List.map_nil]
              rw [List.nodup_append]
              refine ⟨hnd, List.nodup_singleton u, ?_⟩
              intro x hx hxu
              rw [List.mem_singleton] at hxu
              subst hxu
              exact hvis (hsub x hx)
      · exact hnd

/-- Claim C4: no URL appears twice in the output sequence of `crawl_site` —
the URLs of the `(url, rawMarkup)` pairs are pairwise distinct, for every
environment, seed, budget and fuel value. -/
theorem claimC4_no_duplicate_urls (env : CrawlEnv) (base_url : String) (maxPages fuel : Nat) :
    ((crawl_site env base_url maxPages fuel).crawled.map Prod.fst).Nodup :=
  crawlLoop_nodup env (urlparse base_url).netloc maxPages fuel [base_url] [] [] []
    (by intro x hx; simp at hx) (by simp)

/-- Simplified DOM standing for the BeautifulSoup parse tree: a node is
either a text node or an element with a tag name, an attribute list and
child nodes.  A parsed document is a `List Html` of top-level nodes. -/
inductive Html where
  | text (s : String)
  | elem (tag : String) (attrs : List (String × String)) (children : List Html)
deriving Repr

/-- Model of BeautifulSoup `tag.get(name)`: the value of the first attribute
called `a`, or `none` when the attribute is absent. -/
def getAttr (attrs : List (String × String)) (a : String) : Option String :=
  (attrs.find? (fun p => p.1 == a)).map Prod.snd

/-- Attribute lookup directly on a node (`none` on text nodes). -/
def tagAttr (n : Html) (a : String) : Option String :=
  match n with
  | .text _ => none
  | .elem _ attrs _ => getAttr attrs a

mutual

/-- Model of BeautifulSoup `find_all` with a predicate on tag name and
attributes: all matching elements of the subtree, in document order. -/
def findAllP (p : String → List (String × String) → Bool) : Html → List Html
  | .text _ => []
  | .elem t a cs => (if p t a then [Html.elem t a cs] else []) ++ findAllPList p cs

/-- `findAllP` over a list of sibling subtrees. -/
def findAllPList (p : String → List (String × String) → Bool) : List Html → List Html
  | [] => []
  | c :: cs => findAllP p c ++ findAllPList p cs

end

/-- Model of `soup.find_all(tag)` over a document. -/
def findAllTag (tag : String) (doc : List Html) : List Html :=
  findAllPList (fun t _ => t == tag) doc

mutual

/-- Model of BeautifulSoup `get_text`: the concatenation of all text nodes of
the subtree, in document order. -/
def getText : Html → String
  | .text s => s
  | .elem _ _ cs => getTextList cs

/-- `getText` over a list of sibling subtrees. -/
def getTextList : List Html → String
  | [] => ""
  | c :: cs => getText c ++ getTextList cs

end

/-- Is this node an element whose tag is one of `tags`? -/
def isDroppedTag (tags : List String) : Html → Bool
  | .text _ => false
  | .elem t _ _ => t ∈ tags

mutual

/-- Model of `decompose`-ing every element whose tag is in `tags` from the
children of a kept node (as `soup(["script", "style"])` + `decompose()`
does). -/
def removeTags (tags : List String) : Html → Html
  | .text s => .text s
  | .elem t a cs => .elem t a (removeTagsList tags cs)

/-- `removeTags` over a list of sibling subtrees: matching elements are
dropped entirely, other nodes are kept and filtered recursively. -/
def removeTagsList (tags : List String) : List Html → List Html
  | [] => []
  | c :: cs =>
    if isDroppedTag tags c then removeTagsList tags cs
    else removeTags tags c :: removeTagsList tags cs

end

/-- Embedding of `PageAnalyzer._get_title`: trimmed text of the first
`<title>` element, empty when there is none. -/
def _get_title (doc : List Html) : String :=
  match (findAllTag "title" doc).head? with
  | some n => stripStr (getText n)
  | none => ""

/-- The first `<meta name="description">` element of the document, as found
by `soup.find('meta', attrs={'name': 'description'})`. -/
def metaDescTag (doc : List Html) : Option Html :=
  (findAllPList (fun t a => t == "meta" && getAttr a "name" == some "description") doc).head?

/-- Embedding of `PageAnalyzer._get_meta_description`: the stripped `content`
attribute of the first meta-description element when the element exists and
the attribute is a non-empty string (Python truthiness), else the empty
string. -/
def _get_meta_description (doc : List Html) : String :=
  match metaDescTag doc with
  | some n =>
    match tagAttr n "content" with
    | some c => if c ≠ "" then stripStr c else ""
    | none => ""
  | none => ""

/-- Result of `PageAnalyzer._analyze_headers` (the dict it returns). -/
structure HeadersInfo where
  h1_count : Nat
  h1_text : String
  h2_count : Nat
  h3_count : Nat
  total_headings : Nat

/-- Embedding of `PageAnalyzer._analyze_headers`. -/
def _analyze_headers (doc : List Html) : HeadersInfo :=
  let h1s := findAllTag "h1" doc
  let h2s := findAllTag "h2" doc
  let h3s := findAllTag "h3" doc
  { h1_count := h1s.length
    h1_text := match h1s.head? with | some n => stripStr (getText n) | none => ""
    h2_count := h2s.length
    h3_count := h3s.length
    total_headings := h1s.length + h2s.length + h3s.length }

/-- Result of `PageAnalyzer._analyze_images`. -/
structure ImagesInfo where
  total_images : Nat
  images_without_alt : Nat

/-- One `<img>` counts as missing alt text when the `alt` attribute is absent
or falsy (`not alt_text`) or whitespace-only (`not alt_text.strip()`). -/
def imgMissingAlt (n : Html) : Bool :=
  match tagAttr n "alt" with
  | none => true
  | some a => a == "" || stripStr a == ""

/-- Embedding of `PageAnalyzer._analyze_images`. -/
def _analyze_images (doc : List Html) : ImagesInfo :=
  let imgs := findAllTag "img" doc
  { total_images := imgs.length
    images_without_alt := imgs.countP imgMissingAlt }

/-- Result of `PageAnalyzer._analyze_links`. -/
structure LinksInfo where
  total_links : Nat
  internal_links : Nat
  external_links : Nat

/-- The `<a>` elements carrying a truthy `href` attribute, as selected by
`soup.find_all('a', href=True)`. -/
def aTagsWithHref (doc : List Html) : List Html :=
  findAllPList (fun t a => t == "a" && (getAttr a "href").any (fun h => h != "")) doc

/-- The href values of `aTagsWithHref`, in document order. -/
def hrefsOf (doc : List Html) : List String :=
  (aTagsWithHref doc).filterMap (fun n => tagAttr n "href")

/-- Embedding of the classification loop of `PageAnalyzer._analyze_links`:
anchor-only and `javascript:` hrefs are skipped; hrefs beginning with `http`
are internal iff their netloc equals the current page's netloc; all other
hrefs count as internal.  Returns `(internal, external)`. -/
def classifyLinks (current_domain : String) : List String → Nat × Nat
  | [] => (0, 0)
  | h :: t =>
    let r := classifyLinks current_domain t
    if startsWithStr h "#" || startsWithStr h "javascript:" then r
    else if startsWithStr h "http" then
      if (urlparse h).netloc = current_domain then (r.1 + 1, r.2) else (r.1, r.2 + 1)
    else (r.1 + 1, r.2)

/-- Embedding of `PageAnalyzer._analyze_links`: the current domain is the
netloc of the page's own URL. -/
def _analyze_links (doc : List Html) (current_url : String) : LinksInfo :=
  let links := aTagsWithHref doc
  let ie := classifyLinks (urlparse current_url).netloc (hrefsOf doc)
  { total_links := links.length
    internal_links := ie.1
    external_links := ie.2 }

/-- Model of `re.findall(r'\b\w+\b', text)`: word characters are letters,
digits and underscore. -/
def isWordChar (c : Char) : Bool := c.isAlphanum || c = '_'

/-- Scanner producing the `re.findall(r'\b\w+\b', text)` token list: walk
the characters once, extending the pending (reversed) run of word characters
`acc`, and emit the run when a non-word character or the end of the input is
reached. -/
def reFindallGo : List Char → List Char → List (List Char)
  | [], acc => if acc.isEmpty then [] else [acc.reverse]
  | c :: cs, acc =>
    if isWordChar c then reFindallGo cs (c :: acc)
    else if acc.isEmpty then reFindallGo cs []
    else acc.reverse :: reFindallGo cs []

/-- The list of maximal word-character runs of a character list, in order, as
returned by `re.findall(r'\b\w+\b', text)`. -/
def reFindallWords (l : List Char) : List (List Char) := reFindallGo l []

/-- Embedding of `PageAnalyzer._count_words`: decompose all `<script>` and
`<style>` subtrees, take the remaining text, lower-case it and count the
`\b\w+\b` tokens. -/
def _count_words (doc : List Html) : Nat :=
  (reFindallWords (lowerStr (getTextList (removeTagsList ["script", "style"] doc))).data).length

/-- Result of `PageAnalyzer._analyze_technical_seo`. -/
structure TechInfo where
  has_viewport_meta : Bool
  lang_attribute : String
  canonical_url : String
  robots_meta : String
  schema_markup : Bool

/-- Embedding of `PageAnalyzer._analyze_technical_seo`. -/
def _analyze_technical_seo (doc : List Html) : TechInfo :=
  { has_viewport_meta :=
      ((findAllPList (fun t a => t == "meta" && getAttr a "name" == some "viewport") doc).head?).isSome
    lang_attribute :=
      match (findAllTag "html" doc).head? with
      | some n =>
        match tagAttr n "lang" with
        | some l => if l ≠ "" then l else ""
        | none => ""
      | none => ""
    canonical_url :=
      match (findAllPList (fun t a => t == "link" && getAttr a "rel" == some "canonical") doc).head? with
      | some n =>
        match tagAttr n "href" with
        | some h => if h ≠ "" then h else ""
        | none => ""
      | none => ""
    robots_meta :=
      match (findAllPList (fun t a => t == "meta" && getAttr a "name" == some "robots") doc).head? with
      | some n =>
        match tagAttr n "content" with
        | some c => if c ≠ "" then c else ""
        | none => ""
      | none => ""
    schema_markup :=
      (findAllPList (fun t a => t == "script" && getAttr a "type" == some "application/ld+json") doc).length > 0 }

/-- The analysis dict built by `PageAnalyzer.analyze_page`, as a record with
one field per key. -/
structure PageRecord where
  url : String
  domain : String
  title : String
  title_length : Nat
  has_meta_description : Bool
  meta_desc_length : Nat
  meta_description : String
  h1_count : Nat
  h1_text : String
  h2_count : Nat
  h3_count : Nat
  total_headings : Nat
  total_images : Nat
  images_without_alt : Nat
  total_links : Nat
  internal_links : Nat
  external_links : Nat
  word_count : Nat
  page_size : Nat
  has_viewport_meta : Bool
  lang_attribute : String
  canonical_url : String
  robots_meta : String
  schema_markup : Bool

/-- Embedding of `PageAnalyzer.analyze_page(url, html_content)` over the
parsed document `doc`; `html_len` stands for `len(html_content)`.  Note that
`_count_words` decomposes the `<script>`/`<style>` subtrees of the shared
soup before `_analyze_technical_seo` runs, so the technical pass sees the
stripped document. -/
def analyze_page (domain url : String) (doc : List Html) (html_len : Nat) : PageRecord :=
  let title := _get_title doc
  let meta_desc := _get_meta_description doc
  let hs := _analyze_headers doc
  let im := _analyze_images doc
  let ls := _analyze_links doc url
  let tech := _analyze_technical_seo (removeTagsList ["script", "style"] doc)
  { url := url
    domain := domain
    title := title
    title_length := if title ≠ "" then title.length else 0
    has_meta_description := meta_desc ≠ ""
    meta_desc_length := if meta_desc ≠ "" then meta_desc.length else 0
    meta_description := meta_desc
    h1_count := hs.h1_count
    h1_text := hs.h1_text
    h2_count := hs.h2_count
    h3_count := hs.h3_count
    total_headings := hs.total_headings
    total_images := im.total_images
    images_without_alt := im.images_without_alt
    total_links := ls.total_links
    internal_links := ls.internal_links
    external_links := ls.external_links
    word_count := _count_words doc
    page_size := html_len
    has_viewport_meta := tech.has_viewport_meta
    lang_attribute := tech.lang_attribute
    canonical_url := tech.canonical_url
    robots_meta := tech.robots_meta
    schema_markup := tech.schema_markup }

/-- One SEO finding, as the dict appended by the `IssueDetector` checkers. -/
structure Issue where
  type : String
  category : String
  issue : String
  url : String
  recommendation : String
deriving DecidableEq

/-- Embedding of `IssueDetector._check_title_issues`. -/
def _check_title_issues (p : PageRecord) (url : String) : List Issue :=
  if p.title = "" then
    [{ type := "CRITICAL", category := "Title", issue := "Missing title tag", url := url,
       recommendation := "Add a descriptive title tag (30-60 characters) that includes your main keyword" }]
  else if p.title_length < 30 then
    [{ type := "WARNING", category := "Title",
       issue := "Title too short (" ++ toString p.title_length ++ " characters)", url := url,
       recommendation := "Expand title to 30-60 characters for better SEO impact" }]
  else if p.title_length > 60 then
    [{ type := "WARNING", category := "Title",
       issue := "Title too long (" ++ toString p.title_length ++ " characters)", url := url,
       recommendation := "Shorten title to 30-60 characters to prevent truncation in search results" }]
  else []

/-- Embedding of `IssueDetector._check_meta_description_issues`. -/
def _check_meta_description_issues (p : PageRecord) (url : String) : List Issue :=
  if p.has_meta_description = false then
    [{ type := "CRITICAL", category := "Meta Description", issue := "Missing meta description",
       url := url,
       recommendation := "Add a compelling meta description (120-160 characters) that encourages clicks" }]
  else if p.meta_desc_length < 120 then
    [{ type := "WARNING", category := "Meta Description",
       issue := "Meta description too short (" ++ toString p.meta_desc_length ++ " characters)",
       url := url,
       recommendation := "Expand meta description to 120-160 characters for better search result display" }]
  else if p.meta_desc_length > 160 then
    [{ type := "WARNING", category := "Meta Description",
       issue := "Meta description too long (" ++ toString p.meta_desc_length ++ " characters)",
       url := url,
       recommendation := "Shorten meta description to 120-160 characters to prevent truncation" }]
  else []

/-- Embedding of `IssueDetector._check_header_issues`. -/
def _check_header_issues (p : PageRecord) (url : String) : List Issue :=
  (if p.h1_count = 0 then
    [{ type := "CRITICAL", category := "Headers", issue := "Missing H1 tag", url := url,
       recommendation := "Add exactly one H1 tag that describes the main topic of the page" }]
  else if p.h1_count > 1 then
    [{ type := "WARNING", category := "Headers",
       issue := "Multiple H1 tags (" ++ toString p.h1_count ++ " found)", url := url,
       recommendation := "Use only one H1 tag per page. Convert additional H1s to H2 or H3 tags" }]
  else []) ++
  (if p.total_headings = 0 then
    [{ type := "WARNING", category := "Headers", issue := "No header tags found", url := url,
       recommendation := "Add header tags (H1, H2, H3) to structure your content and improve readability" }]
  else [])

/-- Embedding of `IssueDetector._check_image_issues`. -/
def _check_image_issues (p : PageRecord) (url : String) : List Issue :=
  if p.total_images > 0 ∧ p.images_without_alt > 0 then
    [{ type := "WARNING", category := "Images",
       issue := toString p.images_without_alt ++ " of " ++ toString p.total_images
         ++ " images missing alt text",
       url := url,
       recommendation := "Add descriptive alt text to all images for better accessibility and SEO" }]
  else []

/-- Embedding of `IssueDetector._check_content_issues`. -/
def _check_content_issues (p : PageRecord) (url : String) : List Issue :=
  if p.word_count < 150 then
    [{ type := "WARNING", category := "Content",
       issue := "Low content volume (" ++ toString p.word_count ++ " words)", url := url,
       recommendation := "Add more substantive content (aim for 300+ words) to provide value to users" }]
  else if p.word_count < 300 then
    [{ type := "INFO", category := "Content",
       issue := "Moderate content volume (" ++ toString p.word_count ++ " words)", url := url,
       recommendation := "Consider expanding content to 300+ words for better SEO performance" }]
  else []

/-- Embedding of `IssueDetector._check_technical_issues`. -/
def _check_technical_issues (p : PageRecord) (url : String) : List Issue :=
  (if p.has_viewport_meta = false then
    [{ type := "WARNING", category := "Technical", issue := "Missing viewport meta tag", url := url,
       recommendation := "Add viewport meta tag: <meta name=\"viewport\" content=\"width=device-width, initial-scale=1\">" }]
  else []) ++
  (if p.lang_attribute = "" then
    [{ type := "WARNING", category := "Technical", issue := "Missing language attribute", url := url,
       recommendation := "Add lang attribute to <html> tag (e.g., <html lang=\"en\">)" }]
  else []) ++
  (if p.canonical_url = "" then
    [{ type := "INFO", category := "Technical", issue := "Missing canonical URL", url := url,
       recommendation := "Consider adding canonical URL to prevent duplicate content issues" }]
  else [])

/-- Embedding of `IssueDetector.detect_page_issues`: the six rule families in
their fixed order, each applied to the record and its `url` field. -/
def detect_page_issues (p : PageRecord) : List Issue :=
  _check_title_issues p p.url ++
  _check_meta_description_issues p p.url ++
  _check_header_issues p p.url ++
  _check_image_issues p p.url ++
  _check_content_issues p p.url ++
  _check_technical_issues p p.url

/-- Embedding of `IssueDetector.detect_all_issues`: the accumulation loop
`all_issues.extend(self.detect_page_issues(page))` over the pages in order. -/
def detect_all_issues (pages : List PageRecord) : List Issue :=
  pages.foldl (fun acc p => acc ++ detect_page_issues p) []

/-- Claim C5: the issue thresholds are exact at the boundaries.  For a record
with a non-empty title, title lengths 30 and 60 produce no Title issue, 29
produces the "Title too short" WARNING and 61 the "Title too long" WARNING;
for a record with a meta description present, length 119 produces the
"too short" WARNING, 120 and 160 produce no Meta Description issue and 161
produces the "too long" WARNING. -/
theorem claimC5_boundaries (r : PageRecord)
    (ht : r.title ≠ "") (hm : r.has_meta_description = true) :
    (r.title_length = 30 → _check_title_issues r r.url = []) ∧
    (r.title_length = 60 → _check_title_issues r r.url = []) ∧
    (r.title_length = 29 → _check_title_issues r r.url =
      [⟨"WARNING", "Title", "Title too short (29 characters)", r.url,
        "Expand title to 30-60 characters for better SEO impact"⟩]) ∧
    (r.title_length = 61 → _check_title_issues r r.url =
      [⟨"WARNING", "Title", "Title too long (61 characters)", r.url,
        "Shorten title to 30-60 characters to prevent truncation in search results"⟩]) ∧
    (r.meta_desc_length = 119 → _check_meta_description_issues r r.url =
      [⟨"WARNING", "Meta Description", "Meta description too short (119 characters)", r.url,
        "Expand meta description to 120-160 characters for better search result display"⟩]) ∧
    (r.meta_desc_length = 120 → _check_meta_description_issues r r.url = []) ∧
    (r.meta_desc_length = 160 → _check_meta_description_issues r r.url = []) ∧
    (r.meta_desc_length = 161 → _check_meta_description_issues r r.url =
      [⟨"WARNING", "Meta Description", "Meta description too long (161 characters)", r.url,
        "Shorten meta description to 120-160 characters to prevent truncation"⟩]) := by
  have hm' : ¬ (r.has_meta_description = false) := by rw [hm]; decide
  refine ⟨?_, ?_, ?_, ?_, ?_, ?_, ?_, ?_⟩ <;> intro h <;>
    first
      | (unfold _check_title_issues
         rw [if_neg ht, h]
         first
           | (simp; done)
           | (rw [if_pos (by norm_num)]
              rw [show ("Title too short (" ++ toString (29 : Nat) ++ " characters)")
                    = "Title too short (29 characters)" from by decide])
           | (rw [if_neg (by norm_num), if_pos (by norm_num)]
              rw [show ("Title too long (" ++ toString (61 : Nat) ++ " characters)")
                    = "Title too long (61 characters)" from by decide]))
      | (unfold _check_meta_description_issues
         rw [if_neg hm', h]
         first
           | (simp; done)
           | (rw [if_pos (by norm_num)]
              rw [show ("Meta description too short (" ++ toString (119 : Nat) ++ " characters)")
                    = "Meta description too short (119 characters)" from by decide])
           | (rw [if_neg (by norm_num), if_pos (by norm_num)]
              rw [show ("Meta description too long (" ++ toString (161 : Nat) ++ " characters)")
                    = "Meta description too long (161 characters)" from by decide]))

/-- Concrete record at the title-length-30 / meta-length-120 boundary. -/
def boundaryRec : PageRecord where
  url := "https://example.com/"
  domain := "example.com"
  title := "Some page title of thirty chars"
  title_length := 30
  has_meta_description := true
  meta_desc_length := 120
  meta_description := "a meta description"
  h1_count := 1
  h1_text := "h"
  h2_count := 0
  h3_count := 0
  total_headings := 1
  total_images := 0
  images_without_alt := 0
  total_links := 0
  internal_links := 0
  external_links := 0
  word_count := 400
  page_size := 1000
  has_viewport_meta := true
  lang_attribute := "en"
  canonical_url := "https://example.com/"
  robots_meta := ""
  schema_markup := false

/-- Witness for claim C5 at the concrete boundary record. -/
theorem claimC5_witness :
    boundaryRec.title ≠ "" ∧
    boundaryRec.has_meta_description = true ∧
    ((boundaryRec.title_length = 30 → _check_title_issues boundaryRec boundaryRec.url = []) ∧
     (boundaryRec.title_length = 60 → _check_title_issues boundaryRec boundaryRec.url = []) ∧
     (boundaryRec.title_length = 29 → _check_title_issues boundaryRec boundaryRec.url =
       [⟨"WARNING", "Title", "Title too short (29 characters)", boundaryRec.url,
         "Expand title to 30-60 characters for better SEO impact"⟩]) ∧
     (boundaryRec.title_length = 61 → _check_title_issues boundaryRec boundaryRec.url =
       [⟨"WARNING", "Title", "Title too long (61 characters)", boundaryRec.url,
         "Shorten title to 30-60 characters to prevent truncation in search results"⟩]) ∧
     (boundaryRec.meta_desc_length = 119 → _check_meta_description_issues boundaryRec boundaryRec.url =
       [⟨"WARNING", "Meta Description", "Meta description too short (119 characters)", boundaryRec.url,
         "Expand meta description to 120-160 characters for better search result display"⟩]) ∧
     (boundaryRec.meta_desc_length = 120 → _check_meta_description_issues boundaryRec boundaryRec.url = []) ∧
     (boundaryRec.meta_desc_length = 160 → _check_meta_description_issues boundaryRec boundaryRec.url = []) ∧
     (boundaryRec.meta_desc_length = 161 → _check_meta_description_issues boundaryRec boundaryRec.url =
       [⟨"WARNING", "Meta Description", "Meta description too long (161 characters)", boundaryRec.url,
         "Shorten meta description to 120-160 characters to prevent truncation"⟩])) :=
  ⟨by decide, by decide, claimC5_boundaries boundaryRec (by decide) (by decide)⟩

/-- Does a node satisfy the element predicate `p` (false on text nodes)? -/
def nodeMatches (p : String → List (String × String) → Bool) : Html → Bool
  | .text _ => false
  | .elem t a _ => p t a

mutual

/-- Helper: every node returned by `findAllP` satisfies the predicate. -/
theorem nodeMatches_of_mem_findAllP (p : String → List (String × String) → Bool) :
    ∀ (n : Html) (x : Html), x ∈ findAllP p n → nodeMatches p x = true
  | .text _, x, hx => by simp [findAllP] at hx
  | .elem t a cs, x, hx => by
    simp only [findAllP] at hx
    rcases List.mem_append.mp hx with h1 | h2
    · by_cases hpta : p t a = true
      · rw [if_pos hpta] at h1
        rw [List.mem_singleton] at h1
        subst h1
        simpa [nodeMatches] using hpta
      · rw [if_neg hpta] at h1
        simp at h1
    · exact nodeMatches_of_mem_findAllPList p cs x h2

/-- Helper: every node returned by `findAllPList` satisfies the predicate. -/
theorem nodeMatches_of_mem_findAllPList (p : String → List (String × String) → Bool) :
    ∀ (ns : List Html) (x : Html), x ∈ findAllPList p ns → nodeMatches p x = true
  | [], x, hx => by simp [findAllPList] at hx
  | c :: cs, x, hx => by
    simp only [findAllPList] at hx
    rcases List.mem_append.mp hx with h1 | h2
    · exact nodeMatches_of_mem_findAllP p c x h1
    · exact nodeMatches_of_mem_findAllPList p cs x h2

end

/-- Helper: `filterMap` preserves the length when the function succeeds on
every element. -/
theorem filterMapLenEq {α β : Type} (f : α → Option β) :
    ∀ l : List α, (∀ x ∈ l, (f x).isSome = true) → (l.filterMap f).length = l.length := by
  intro l
  induction l with
  | nil => simp
  | cons a t ih =>
    intro h
    cases hf : f a with
    | none =>
      have := h a (by simp)
      rw [hf] at this
      simp at this
    | some b =>
      rw [List.filterMap_cons, hf]
      simp only [List.length_cons]
      rw [ih (fun x hx => h x (by simp [hx]))]

/-- Helper: every `<a href=...>` element found by `aTagsWithHref` carries an
href attribute. -/
theorem aTagsWithHref_href_isSome (doc : List Html) :
    ∀ x ∈ aTagsWithHref doc, (tagAttr x "href").isSome = true := by
  intro x hx
  have hm := nodeMatches_of_mem_findAllPList
    (fun t a => t == "a" && (getAttr a "href").any (fun h => h != "")) doc x hx
  cases x with
  | text s => simp [nodeMatches] at hm
  | elem t a cs =>
    simp only [nodeMatches, Bool.and_eq_true] at hm
    cases hattr : getAttr a "href" with
    | none => rw [hattr] at hm; simp [Option.any] at hm
    | some h => simp [tagAttr, hattr]

/-- Helper: `hrefsOf` has exactly one href per selected `<a>` element. -/
theorem hrefsOf_length (doc : List Html) :
    (hrefsOf doc).length = (aTagsWithHref doc).length :=
  filterMapLenEq (fun n => tagAttr n "href") (aTagsWithHref doc)
    (aTagsWithHref_href_isSome doc)

/-- Helper: the internal/external counters of the classification loop add up
to the number of non-skipped hrefs. -/
theorem classifyLinks_sum (d : String) (l : List String) :
    (classifyLinks d l).1 + (classifyLinks d l).2
      = (l.filter (fun h => !(startsWithStr h "#" || startsWithStr h "javascript:"))).length := by
  induction l with
  | nil => simp [classifyLinks]
  | cons h t ih =>
    simp only [classifyLinks, List.filter_cons]
    cases hskip : (startsWithStr h "#" || startsWithStr h "javascript:") with
    | true =>
      simp only [Bool.not_true, if_neg (by simp : ¬ (false = true))]
      simpa using ih
    | false =>
      simp only [Bool.not_or] at ih
      simp
      split_ifs <;> omega

/-- Claim C6: for every analyzed page, `imagesWithoutAlt ≤ totalImages` and
`internalLinks + externalLinks ≤ totalLinks`; moreover the internal and
external counters together count exactly the hrefs that do not start with
`#` or `javascript:`, while `totalLinks` counts every `<a>` element with a
(truthy) href, so anchor-only and `javascript:` links count toward
`totalLinks` but toward neither classification. -/
theorem claimC6_count_invariants (domain url : String) (doc : List Html) (n : Nat) :
    (analyze_page domain url doc n).images_without_alt
        ≤ (analyze_page domain url doc n).total_images ∧
    (analyze_page domain url doc n).internal_links + (analyze_page domain url doc n).external_links
        ≤ (analyze_page domain url doc n).total_links ∧
    (analyze_page domain url doc n).internal_links + (analyze_page domain url doc n).external_links
        = ((hrefsOf doc).filter
            (fun h => !(startsWithStr h "#" || startsWithStr h "javascript:"))).length ∧
    (analyze_page domain url doc n).total_links = (hrefsOf doc).length := by
  have himg : (analyze_page domain url doc n).images_without_alt
      = (findAllTag "img" doc).countP imgMissingAlt := rfl
  have htot : (analyze_page domain url doc n).total_images = (findAllTag "img" doc).length := rfl
  have hsum : (analyze_page domain url doc n).internal_links
        + (analyze_page domain url doc n).external_links
      = ((hrefsOf doc).filter
          (fun h => !(startsWithStr h "#" || startsWithStr h "javascript:"))).length :=
    classifyLinks_sum (urlparse url).netloc (hrefsOf doc)
  have hlinks : (analyze_page domain url doc n).total_links = (hrefsOf doc).length :=
    (hrefsOf_length doc).symm
  refine ⟨?_, ?_, hsum, hlinks⟩
  · rw [himg, htot]; exact List.countP_le_length imgMissingAlt
  · rw [hsum, hlinks]; exact List.length_filter_le _ _

/-- Specification-side count of the maximal runs of word characters in a
character list: a run is counted at its first character, i.e. at every word
character not preceded by a word character; the Boolean argument records
whether the previous character was a word character. -/
def runStartCount : Bool → List Char → Nat
  | _, [] => 0
  | prev, c :: cs => (if isWordChar c && !prev then 1 else 0) + runStartCount (isWordChar c) cs

/-- Helper: the number of tokens the scanner still produces is one for the
pending run (when there is one) plus one per future run start, where the
previous-character flag of `runStartCount` is exactly "the pending run is
non-empty". -/
theorem reFindallGo_length :
    ∀ (l acc : List Char),
      (reFindallGo l acc).length
        = (if acc.isEmpty then 0 else 1) + runStartCount (!acc.isEmpty) l := by
  intro l
  induction l with
  | nil => intro acc; cases acc <;> simp [reFindallGo, runStartCount]
  | cons c cs ih =>
    intro acc
    by_cases hw : isWordChar c = true
    · rw [reFindallGo, if_pos hw]
      rw [ih (c :: acc)]
      cases acc <;> simp [runStartCount, hw]
    · have hw' : isWordChar c = false := by simpa using hw
      rw [reFindallGo, if_neg hw]
      cases acc with
      | nil =>
        simp only [List.isEmpty_nil, if_true]
        rw [ih []]
        simp [runStartCount, hw']
      | cons a as =>
        simp only [List.isEmpty_cons, if_neg (by decide : ¬ (false = true)), List.length_cons]
        rw [ih []]
        simp [runStartCount, hw', Nat.add_comm]

/-- Helper: `re.findall(r'\b\w+\b', ...)` returns exactly one token per
maximal run of word characters. -/
theorem reFindallWords_length (l : List Char) :
    (reFindallWords l).length = runStartCount false l := by
  have h := reFindallGo_length l []
  simpa [reFindallWords] using h

/-- Claim C7: the `wordCount` of every analyzed page equals the number of
maximal runs of word characters (counted at their starting positions by
`runStartCount`) in the lower-cased text of the document after all
`<script>` and `<style>` subtrees have been removed; in particular text
inside those subtrees never contributes. -/
theorem claimC7_word_count (domain url : String) (doc : List Html) (n : Nat) :
    (analyze_page domain url doc n).word_count
      = runStartCount false (lowerStr (getTextList (removeTagsList ["script", "style"] doc))).data :=
  reFindallWords_length _

/-- Claim C8: `detect_all_issues` is exactly the concatenation of
`detect_page_issues` over the records in input order, and per page the rules
are evaluated in the fixed order Title, Meta Description, Headers, Images,
Content, Technical; `detect_page_issues` reads only the given record. -/
theorem claimC8_detect_all_concat :
    (∀ pages : List PageRecord,
      detect_all_issues pages = (pages.map detect_page_issues).flatten) ∧
    (∀ p : PageRecord, detect_page_issues p =
      _check_title_issues p p.url ++ _check_meta_description_issues p p.url ++
      _check_header_issues p p.url ++ _check_image_issues p p.url ++
      _check_content_issues p p.url ++ _check_technical_issues p p.url) := by
  constructor
  · have key : ∀ (l : List PageRecord) (acc : List Issue),
        l.foldl (fun a p => a ++ detect_page_issues p) acc
          = acc ++ (l.map detect_page_issues).flatten := by
      intro l
      induction l with
      | nil => simp
      | cons p t ih =>
        intro acc
        simp only [List.foldl_cons, List.map_cons, List.flatten_cons]
        rw [ih (acc ++ detect_page_issues p)]
        simp [List.append_assoc]
    intro pages
    unfold detect_all_issues
    simpa using key pages []
  · intro p
    rfl

/-- Outcome of the caller in `src/main.py` after the crawl: either the
distinguished "no pages found to analyze" exit (taken when `crawled_pages`
is falsy, before any analyzer or detector call), or the analyzed pages with
their detected issues. -/
inductive ScanOutcome where
  | noPages
  | analyzed (pages_data : List PageRecord) (issues : List Issue)

/-- Embedding of the caller logic of `main` in `src/main.py` after
`crawl_site` returns: `analyzeRaw url html` stands for
`analyzer.analyze_page(url, html_content)` (the BeautifulSoup parse composed
with the analysis).  An empty crawl result short-circuits to `noPages`;
otherwise every page is analyzed and the issues detected over the records. -/
def runScan (analyzeRaw : String → String → PageRecord)
    (crawled : List (String × String)) : ScanOutcome :=
  if crawled.isEmpty then .noPages
  else
    let pages_data := crawled.map (fun pr => analyzeRaw pr.1 pr.2)
    .analyzed pages_data (detect_all_issues pages_data)

/-- Helper: when every fetch fails, the loop never appends to the result. -/
theorem crawlLoop_all_fail (env : CrawlEnv) (d : String) (m : Nat)
    (hf : ∀ u, env.fetch u = none) :
    ∀ (fuel : Nat) (frontier visited attempts : List String),
      (crawlLoop env d m fuel frontier visited [] attempts).crawled = [] := by
  intro fuel
  induction fuel with
  | zero => intro frontier visited attempts; rfl
  | succ n ih =>
    intro frontier visited attempts
    match frontier with
    | [] => rfl
    | u :: rest =>
      simp only [crawlLoop, hf u]
      split
      · split
        · exact ih rest visited attempts
        · exact ih rest visited (attempts ++ [u])
      · rfl

/-- Claim C9: a run in which every fetch fails returns the empty sequence
rather than raising, and the caller maps that empty result to the
distinguished `noPages` outcome without invoking the analyzer or the issue
detector (the outcome carries no page record and no issue, whatever the
analyzer function is). -/
theorem claimC9_empty_result (env : CrawlEnv) (base_url : String) (maxPages fuel : Nat)
    (analyzeRaw : String → String → PageRecord)
    (hf : ∀ u, env.fetch u = none) :
    (crawl_site env base_url maxPages fuel).crawled = [] ∧
    runScan analyzeRaw (crawl_site env base_url maxPages fuel).crawled = ScanOutcome.noPages := by
  have h : (crawl_site env base_url maxPages fuel).crawled = [] :=
    crawlLoop_all_fail env (urlparse base_url).netloc maxPages hf fuel [base_url] [] []
  exact ⟨h, by rw [h]; rfl⟩

/-- Environment in which every fetch fails (seed unreachable). -/
def deadEnv : CrawlEnv where
  fetch _ := none
  links _ _ := []

/-- Witness for claim C9: with the always-failing environment, the crawl
yields no pages and the caller reports the `noPages` outcome. -/
theorem claimC9_witness :
    (∀ u, deadEnv.fetch u = none) ∧
    (crawl_site deadEnv "https://example.com/" 5 10).crawled = [] ∧
    runScan (fun u body => analyze_page "example.com" u [] body.length)
      (crawl_site deadEnv "https://example.com/" 5 10).crawled = ScanOutcome.noPages :=
  ⟨fun _ => rfl,
    (claimC9_empty_result deadEnv "https://example.com/" 5 10
      (fun u body => analyze_page "example.com" u [] body.length) (fun _ => rfl)).1,
    (claimC9_empty_result deadEnv "https://example.com/" 5 10
      (fun u body => analyze_page "example.com" u [] body.length) (fun _ => rfl)).2⟩

/-- Claim C10: when the first `<meta name="description">` element exists but
its `content` attribute is absent, empty or whitespace-only, the analyzed
record has `hasMetaDescription = false`, `metaDescription = ""` and
`metaDescLength = 0`, and the meta-description checker emits exactly the
CRITICAL "Missing meta description" issue (not a "too short" warning). -/
theorem claimC10_blank_meta_description (domain url : String) (doc : List Html) (n : Nat)
    (_htag : (metaDescTag doc).isSome = true)
    (hblank : ∀ s, (metaDescTag doc).bind (fun t => tagAttr t "content") = some s →
      stripStr s = "") :
    (analyze_page domain url doc n).has_meta_description = false ∧
    (analyze_page domain url doc n).meta_description = "" ∧
    (analyze_page domain url doc n).meta_desc_length = 0 ∧
    _check_meta_description_issues (analyze_page domain url doc n)
        (analyze_page domain url doc n).url =
      [⟨"CRITICAL", "Meta Description", "Missing meta description",
        (analyze_page domain url doc n).url,
        "Add a compelling meta description (120-160 characters) that encourages clicks"⟩] := by
  have hmd : _get_meta_description doc = "" := by
    unfold _get_meta_description
    cases htg : metaDescTag doc with
    | none => rfl
    | some t =>
      cases hc : tagAttr t "content" with
      | none => simp [hc]
      | some c =>
        by_cases hc0 : c = ""
        · simp [hc, hc0]
        · have hstrip : stripStr c = "" := by
            apply hblank c
            rw [htg]
            simpa [Option.bind] using hc
          simp [hc, hc0, hstrip]
  have h1 : (analyze_page domain url doc n).has_meta_description = false := by
    simp [analyze_page, hmd]
  have h2 : (analyze_page domain url doc n).meta_description = "" := by
    simp [analyze_page, hmd]
  have h3 : (analyze_page domain url doc n).meta_desc_length = 0 := by
    simp [analyze_page, hmd]
  refine ⟨h1, h2, h3, ?_⟩
  unfold _check_meta_description_issues
  rw [if_pos h1]

/-- Document whose meta description element has a whitespace-only `content`
attribute. -/
def blankMetaDoc : List Html :=
  [Html.elem "html" []
    [Html.elem "head" []
      [Html.elem "meta" [("name", "description"), ("content", "   ")] []],
     Html.elem "body" [] [Html.text "hello"]]]

/-- Witness for claim C10 at the whitespace-only meta-description document. -/
theorem claimC10_witness :
    (metaDescTag blankMetaDoc).isSome = true ∧
    (∀ s, (metaDescTag blankMetaDoc).bind (fun t => tagAttr t "content") = some s →
      stripStr s = "") ∧
    ((analyze_page "example.com" "https://example.com/" blankMetaDoc 64).has_meta_description
        = false ∧
     (analyze_page "example.com" "https://example.com/" blankMetaDoc 64).meta_description = "" ∧
     (analyze_page "example.com" "https://example.com/" blankMetaDoc 64).meta_desc_length = 0 ∧
     _check_meta_description_issues
         (analyze_page "example.com" "https://example.com/" blankMetaDoc 64)
         (analyze_page "example.com" "https://example.com/" blankMetaDoc 64).url =
       [⟨"CRITICAL", "Meta Description", "Missing meta description",
         (analyze_page "example.com" "https://example.com/" blankMetaDoc 64).url,
         "Add a compelling meta description (120-160 characters) that encourages clicks"⟩]) :=
  ⟨by decide,
   fun s hs => by
     have h1 : (metaDescTag blankMetaDoc).bind (fun t => tagAttr t "content") = some "   " := by
       decide
     rw [h1] at hs
     have h2 : "   " = s := Option.some.inj hs
     rw [← h2]
     decide,
   claimC10_blank_meta_description "example.com" "https://example.com/" blankMetaDoc 64
     (by decide)
     (fun s hs => by
       have h1 : (metaDescTag blankMetaDoc).bind (fun t => tagAttr t "content") = some "   " := by
         decide
       rw [h1] at hs
       have h2 : "   " = s := Option.some.inj hs
       rw [← h2]
       decide)⟩
